import Mathlib

/-!
Verification development for the flame-sample repository.

The definitions below are a shallow embedding of the Python sources:

* `src/flamebench/utils/utils.py`            — `is_numeric_string`
* `src/flamebench/data_sampler/oneDflame_setup.py` — `update_case_parameters`
* `src/flamebench/data_sampler/oneD_sampler.py`    — `OneDSampler._collect_data`,
  `OneDSampler.get_data`, `OneDSampler.save`
* `src/flamebench/dataset_tools/container.py`      — `Container`

Python floats are modelled as exact rationals (`ℚ`); every rational value is
constructed with `mkRat` and integer arithmetic so that concrete runs reduce
inside the kernel.  Fallible code is modelled with `Except`/`Option`.  Error
constructors are named after the specification's error taxonomy (§7); the
Python code signals each of these conditions as a `ValueError` (directly or
from `numpy`), a `FileNotFoundError`, or an unbound-local failure.
-/

/-! ## Python string primitives -/

/-- Model of Python's substring test `pat in line` for a list of characters:
true iff `pat` occurs contiguously inside the second list. -/
def hasSub (pat : List Char) : List Char → Bool
  | [] => pat.isEmpty
  | c :: rest => pat.isPrefixOf (c :: rest) || hasSub pat rest

/-- Model of Python's `pat in line` on strings. -/
def strContains (line pat : String) : Bool := hasSub pat.data line.data

/-- Auxiliary accumulator recursion for `pySplit`. -/
def pySplitAux : List Char → List Char → List (List Char)
  | cur, [] => if cur.isEmpty then [] else [cur.reverse]
  | cur, c :: rest =>
    if c.isWhitespace then
      if cur.isEmpty then pySplitAux [] rest else cur.reverse :: pySplitAux [] rest
    else pySplitAux (c :: cur) rest

/-- Model of Python's `str.split()` (no argument): split on runs of
whitespace, never producing empty tokens.  `line.strip().split()` in the
source is equivalent to `line.split()`. -/
def pySplit (s : String) : List (List Char) := pySplitAux [] s.data

/-! ## Numeric-string recognition and float parsing

`utils.is_numeric_string` matches the regex
`^[-+]?(\d+(\.\d*)?|\.\d+)([eE][-+]?\d+)?$`.  `pyFloat` models Python's
`float(...)` on such delimiter-free tokens, returning the exact rational
value of the literal (the code only ever applies `float` to tokens of this
shape). -/

/-- Longest digit prefix of a character list, with the remainder. -/
def spanDigits : List Char → List Char × List Char
  | [] => ([], [])
  | c :: rest =>
    if c.isDigit then
      let p := spanDigits rest
      (c :: p.1, p.2)
    else ([], c :: rest)

/-- Value of a digit string, most significant digit first. -/
def digitsToNat (ds : List Char) : ℕ := ds.foldl (fun a c => 10 * a + (c.toNat - 48)) 0

/-- Consume an optional leading sign, returning the sign and the rest. -/
def parseSign : List Char → ℤ × List Char
  | '+' :: r => (1, r)
  | '-' :: r => (-1, r)
  | cs => (1, cs)

/-- Parse the mantissa `\d+(\.\d*)?|\.\d+`: returns the digits of the
mantissa read as an integer, the number of fractional digits, and the
remaining characters. -/
def parseMantissa : List Char → Option (ℕ × ℕ × List Char)
  | '.' :: rest =>
    let p := spanDigits rest
    if p.1.isEmpty then none else some (digitsToNat p.1, p.1.length, p.2)
  | cs =>
    let p := spanDigits cs
    if p.1.isEmpty then none
    else
      match p.2 with
      | '.' :: r2 =>
        let q := spanDigits r2
        some (digitsToNat (p.1 ++ q.1), q.1.length, q.2)
      | r => some (digitsToNat p.1, 0, r)

/-- Parse the optional exponent suffix `([eE][-+]?\d+)?` which must reach the
end of the token; returns the (signed) exponent. -/
def parseExpPart : List Char → Option ℤ
  | [] => some 0
  | c :: rest =>
    if c = 'e' ∨ c = 'E' then
      let sp : ℤ × List Char :=
        match rest with
        | '+' :: r => (1, r)
        | '-' :: r => (-1, r)
        | r => (1, r)
      let p := spanDigits sp.2
      if p.1.isEmpty then none
      else if p.2.isEmpty then some (sp.1 * (digitsToNat p.1 : ℤ))
      else none
    else none

/-- Model of Python's `float(tok)` on numeric-literal tokens: the exact
rational value `sign * mantissa * 10 ^ (exponent - fracDigits)`, or `none`
when the token is not a numeric literal. -/
def pyFloat (cs : List Char) : Option ℚ :=
  let sp := parseSign cs
  match parseMantissa sp.2 with
  | none => none
  | some (m, f, rest) =>
    match parseExpPart rest with
    | none => none
    | some e =>
      let p : ℤ := e - (f : ℤ)
      some (mkRat (sp.1 * (m : ℤ) * ((10 : ℤ) ^ p.toNat)) ((10 : ℕ) ^ (-p).toNat))

/-- Match the mantissa part of the regex, returning the remainder. -/
def matchMantissa : List Char → Option (List Char)
  | '.' :: rest =>
    let p := spanDigits rest
    if p.1.isEmpty then none else some p.2
  | cs =>
    let p := spanDigits cs
    if p.1.isEmpty then none
    else
      match p.2 with
      | '.' :: r2 => some (spanDigits r2).2
      | r => some r

/-- Match the exponent part of the regex against the rest of the string. -/
def matchExpPart : List Char → Bool
  | [] => true
  | c :: rest =>
    if c = 'e' ∨ c = 'E' then
      let rest2 :=
        match rest with
        | '+' :: r => r
        | '-' :: r => r
        | r => r
      let p := spanDigits rest2
      !p.1.isEmpty && p.2.isEmpty
    else false

/-- Embedding of `utils.is_numeric_string`: full-string match of
`^[-+]?(\d+(\.\d*)?|\.\d+)([eE][-+]?\d+)?$`. -/
def is_numeric_string (s : String) : Bool :=
  match matchMantissa (parseSign s.data).2 with
  | some r => matchExpPart r
  | none => false

/-! ## Time-directory selection (`OneDSampler._collect_data`, lines 130-133)

The source filters directory entries to numeric names, sorts them with
`key=lambda d: float(d.name)`, and drops the first element (`[1:]`). -/

/-- Sort key `float(d.name)`; the names this is applied to always satisfy
`is_numeric_string`, where `pyFloat` succeeds. -/
def floatKey (s : String) : ℚ := (pyFloat s.data).getD 0

/-- Insert into a key-sorted list, after all entries whose key is not greater
(the placement a stable sort such as Python's `sorted` produces). -/
def sortInsert (x : String) : List String → List String
  | [] => [x]
  | y :: ys =>
    if Rat.blt (floatKey y) (floatKey x) then y :: sortInsert x ys
    else x :: y :: ys

/-- Model of Python's stable `sorted(names, key=float)`. -/
def pySorted : List String → List String
  | [] => []
  | x :: xs => sortInsert x (pySorted xs)

/-- Embedding of the time-directory selection: keep numeric-named entries,
sort ascending by numeric value, then drop the first entry (`[1:]`). -/
def processedTimeDirs (names : List String) : List String :=
  (pySorted (names.filter is_numeric_string)).drop 1

/-! ## Case-parameter deriver (`oneDflame_setup.update_case_parameters`) -/

/-- Error taxonomy for the setup step (spec §7); the source raises
`ValueError("Invalid flame_speed/flame_thickness: must be a positive number")`. -/
inductive SetupError where
  | invalidParameter
  deriving DecidableEq

/-- Derived scalar bundle built by `update_case_parameters` (the dict
returned by the Python function, numeric entries only; `sample_time_steps`
is the fixed count 100). -/
structure CaseParameters where
  flame_speed : ℚ
  flame_thickness : ℚ
  domain_width : ℚ
  domain_length : ℚ
  half_domain_length : ℚ
  target_time_step : ℚ
  chemical_time_scale : ℚ
  sample_time_steps : ℕ
  estimated_time_step : ℚ
  estimated_sim_time : ℚ
  estimated_write_time_step : ℚ

/-- Embedding of `update_case_parameters` (validation of the two numeric
arguments, then the fixed multiplicative heuristics). -/
def update_case_parameters (flame_speed flame_thickness : ℚ) :
    Except SetupError CaseParameters :=
  if flame_speed ≤ 0 then .error .invalidParameter
  else if flame_thickness ≤ 0 then .error .invalidParameter
  else
    let domain_width := flame_thickness * 5
    let domain_length := domain_width * 10
    let half_domain_length := domain_length / 2
    let chemical_time_scale := flame_thickness / flame_speed
    let estimated_time_step := chemical_time_scale / 10
    let estimated_sim_time := estimated_time_step * 100
    .ok
      { flame_speed := flame_speed
        flame_thickness := flame_thickness
        domain_width := domain_width
        domain_length := domain_length
        half_domain_length := half_domain_length
        target_time_step := 1 / 1000000
        chemical_time_scale := chemical_time_scale
        sample_time_steps := 100
        estimated_time_step := estimated_time_step
        estimated_sim_time := estimated_sim_time
        estimated_write_time_step := estimated_time_step }

/-! ## Output parser / time-series assembler (`OneDSampler._collect_data`, lines 135-173)

A field file is modelled as its list of lines (without trailing newlines,
which the source's `in`/`strip`/`split` handling makes irrelevant).  A time
directory is an association list from field-file name to file lines, so the
on-disk layout imposes no order; the caller-supplied field order
`['T', 'p'] + species_names` drives the iteration. -/

/-- Error taxonomy of the parser (spec §7).  In the source,
`missingFieldFile` is a `FileNotFoundError` from `open`, `malformedFieldFile`
an unbound-local / `ValueError` failure in the scan, `inconsistentFieldLength`
the `numpy` shape error raised by `np.concatenate`, and `emptyData` the
`numpy` error for concatenating an empty list. -/
inductive CollectError where
  | missingFieldFile
  | malformedFieldFile
  | inconsistentFieldLength
  | emptyData
  deriving DecidableEq

/-- One parsed field at one time step: a uniform scalar or a spatially
varying sequence. -/
inductive FieldKind where
  | uniform (v : ℚ)
  | nonuniform (vs : List ℚ)

/-- Outcome of the sequential line scan of one field file. -/
inductive ScanOut where
  | foundUniform (line : String)
  | ended (startIdx : Option ℕ) (stopIdx : Option ℕ)

/-- Embedding of the `for i, line in enumerate(lines)` scan: set
`sample_started` on the internal-values marker, break on a uniform marker,
record `start = i + 1` at each opening delimiter and break with `end = i` at
a closing delimiter. -/
def scanAux : List String → ℕ → Bool → Option ℕ → ScanOut
  | [], _, _, startIdx => .ended startIdx none
  | line :: rest, i, started, startIdx =>
    let started := started || strContains line "internalField"
    if started && strContains line " uniform" then .foundUniform line
    else
      let startIdx := if started && strContains line "(" then some (i + 1) else startIdx
      if started && strContains line ")" then .ended startIdx (some i)
      else scanAux rest (i + 1) started startIdx

/-- Embedding of `float(line.strip().split()[-1][:-1])`: last whitespace
token of the line, last character removed, parsed as a float. -/
def uniformValueOfLine (line : String) : Option ℚ :=
  match (pySplit line).getLast? with
  | none => none
  | some tok => pyFloat tok.dropLast

/-- Model of `np.loadtxt(lines).reshape(-1, 1)`: every whitespace token of
every line parsed as one float, in order (blank lines contribute nothing). -/
def loadtxt (ls : List String) : Option (List ℚ) :=
  (ls.mapM (fun l => (pySplit l).mapM pyFloat)).map List.flatten

/-- Per-field parse algorithm applied to one field file of one time step. -/
def parseField (lines : List String) : Except CollectError FieldKind :=
  match scanAux lines 0 false none with
  | .foundUniform line =>
    match uniformValueOfLine line with
    | some v => .ok (.uniform v)
    | none => .error .malformedFieldFile
  | .ended (some s) (some e) =>
    match loadtxt ((lines.take e).drop s) with
    | some vs => .ok (.nonuniform vs)
    | none => .error .malformedFieldFile
  | .ended _ _ => .error .malformedFieldFile

/-- A time directory: field-file name to file lines. -/
abbrev TimeDir := List (String × List String)

/-- Caller-supplied field order: `['T', 'p'] + species_names`. -/
def sampleDims (species_names : List String) : List String :=
  "T" :: "p" :: species_names

/-- Model of `open(time_dir / var)`. -/
def readField (dir : TimeDir) (name : String) : Except CollectError (List String) :=
  match dir.lookup name with
  | some lines => .ok lines
  | none => .error .missingFieldFile

/-- Inner loop `for var in sample_dims`: parse each field, broadcasting a
uniform value to the carried `data_shape` (`np.ones((data_shape, 1)) *
uniform_value`) and resetting `data_shape` at each non-uniform field.
Returns the updated `data_shape` and the per-field columns. -/
def collectFields (dir : TimeDir) : List String → ℕ →
    Except CollectError (ℕ × List (List ℚ))
  | [], shape => .ok (shape, [])
  | nm :: rest, shape =>
    match readField dir nm with
    | .error e => .error e
    | .ok lines =>
      match parseField lines with
      | .error e => .error e
      | .ok (.uniform v) =>
        match collectFields dir rest shape with
        | .error e => .error e
        | .ok p => .ok (p.1, List.replicate shape v :: p.2)
      | .ok (.nonuniform vs) =>
        match collectFields dir rest vs.length with
        | .error e => .error e
        | .ok p => .ok (p.1, vs :: p.2)

/-- Model of `np.concatenate(time_arrays, axis=1)`: all columns must have the
row count of the first; the result is the list of rows. -/
def concatCols : List (List ℚ) → Except CollectError (List (List ℚ))
  | [] => .error .emptyData
  | c :: cs =>
    if cs.all (fun col => col.length = c.length) then
      .ok ((List.range c.length).map (fun i => (c :: cs).map (fun col => col.getD i 0)))
    else .error .inconsistentFieldLength

/-- One iteration of the outer `for time_dir in time_dirs` loop. -/
def collectDir (names : List String) (shape : ℕ) (dir : TimeDir) :
    Except CollectError (ℕ × List (List ℚ)) :=
  match collectFields dir names shape with
  | .error e => .error e
  | .ok p =>
    match concatCols p.2 with
    | .error e => .error e
    | .ok rows => .ok (p.1, rows)

/-- Outer loop over the time directories, threading `data_shape` (which the
source initialises to 0 once, before the loop). -/
def collectAux (names : List String) : ℕ → List TimeDir →
    Except CollectError (List (List (List ℚ)))
  | _, [] => .ok []
  | shape, dir :: dirs =>
    match collectDir names shape dir with
    | .error e => .error e
    | .ok p =>
      match collectAux names p.1 dirs with
      | .error e => .error e
      | .ok rest => .ok (p.2 :: rest)

/-- Embedding of the data-assembly part of `_collect_data`: per-directory row
blocks concatenated along axis 0 (`np.concatenate(data_collector, axis=0)`,
which fails on an empty list). -/
def collect_data (species_names : List String) (dirs : List TimeDir) :
    Except CollectError (List (List ℚ)) :=
  match collectAux (sampleDims species_names) 0 dirs with
  | .error e => .error e
  | .ok mats => if mats.isEmpty then .error .emptyData else .ok mats.flatten

/-! ## Sampler result access (`OneDSampler.get_data` / `OneDSampler.save`) -/

/-- Error for accessing results before the pipeline has run (spec §7); the
source raises `ValueError("Data not sampled yet. Call sample() first.")` /
`ValueError("No data to save. Run sample() first.")`. -/
inductive AccessError where
  | notYetSampled
  deriving DecidableEq

/-- The sampler's result-bearing state: `self.data` starts as `None` and is
assigned only by a successful `_collect_data`. -/
structure OneDSampler where
  species_names : List String
  data : Option (List (List ℚ))

/-- Embedding of `sample()` restricted to its data-assembly effect: run the
collector on the discovered time directories and store the result. -/
def OneDSampler.sample (s : OneDSampler) (dirs : List TimeDir) :
    Except CollectError OneDSampler :=
  match collect_data s.species_names dirs with
  | .ok d => .ok { s with data := some d }
  | .error e => .error e

/-- Embedding of `get_data()`. -/
def OneDSampler.get_data (s : OneDSampler) :
    Except AccessError (List (List ℚ)) :=
  match s.data with
  | none => .error .notYetSampled
  | some d => .ok d

/-- Embedding of `save()`, abstracted to the array it persists: errors before
touching the filesystem when no data is present. -/
def OneDSampler.save (s : OneDSampler) :
    Except AccessError (List (List ℚ)) :=
  match s.data with
  | none => .error .notYetSampled
  | some d => .ok d

/-! ## Dataset container (`dataset_tools/container.py`) -/

/-- Model of Python's `int(q)` on a rational (truncation toward zero). -/
def pyInt (q : ℚ) : ℤ := if q < 0 then -(⌊-q⌋) else ⌊q⌋

/-- Model of Python's slice-bound normalisation for `l[:k]` / `l[k:]`. -/
def pyBound (len : ℕ) (k : ℤ) : ℕ :=
  if k < 0 then ((len : ℤ) + k).toNat else min k.toNat len

/-- Model of `l[:k]`. -/
def pyTake (l : List ℕ) (k : ℤ) : List ℕ := l.take (pyBound l.length k)

/-- Model of `l[k:]`. -/
def pyDrop (l : List ℕ) (k : ℤ) : List ℕ := l.drop (pyBound l.length k)

/-- Dataset container: the underlying 2-D array and the logical access-index
array `dataIdx` (initialised to `range(data.shape[0])`). -/
structure Container where
  data : List (List ℚ)
  dataIdx : List ℕ

/-- Embedding of `Container.__len__`. -/
def Container.len (c : Container) : ℕ := c.dataIdx.length

/-- Embedding of `Container.train_test_split`: `cutoffIdx =
int(split_ratio * self.data.shape[0])`, then index-array slicing on two deep
copies. -/
def Container.train_test_split (c : Container) (r : ℚ) : Container × Container :=
  let cutoffIdx : ℤ := pyInt (r * (c.data.length : ℚ))
  (⟨c.data, pyTake c.dataIdx cutoffIdx⟩, ⟨c.data, pyDrop c.dataIdx cutoffIdx⟩)

/-- Linear congruential step standing in for numpy's seeded Mersenne-Twister
stream (the numpy contract used by the source: `np.random.seed(seed)`
followed by `np.random.permutation(n)` is a deterministic function of
`(seed, n)` returning a permutation of `arange(n)`). -/
def nextRand (s : ℕ) : ℕ := (1103515245 * s + 12345) % 2 ^ 31

/-- Fisher-Yates-style extraction driven by the pseudo-random stream: pick a
position of the remaining list, emit it, recurse on the rest. -/
def fyAux : ℕ → ℕ → List ℕ → List ℕ
  | 0, _, _ => []
  | fuel + 1, st, l =>
    if l.isEmpty then []
    else
      let j := st % l.length
      l.getD j 0 :: fyAux fuel (nextRand st) (l.take j ++ l.drop (j + 1))

/-- Model of `np.random.seed(seed); np.random.permutation(n)`. -/
def npPermutation (seed n : ℕ) : List ℕ :=
  fyAux n (nextRand seed) (List.range n)

/-- Embedding of `Container.shuffle` with an explicit seed:
`self.dataIdx = np.random.permutation(self.data.shape[0])`. -/
def Container.shuffle (c : Container) (seed : ℕ) : Container :=
  ⟨c.data, npPermutation seed c.data.length⟩

/-- Embedding of `Container.__getitem__` composed with `getModelFeatures` /
`getModelLabels`: resolve `dataIdx[idx]`, then split the addressed row into
features (`row[:-1]`) and label (`row[[-1]]`). -/
def Container.getItem (c : Container) (idx : ℕ) : Option (List ℚ × List ℚ) :=
  match c.dataIdx.get? idx with
  | none => none
  | some j =>
    match c.data.get? j with
    | none => none
    | some row => some (row.dropLast, row.drop (row.length - 1))

/-! ## Order lemmas for the time-directory sort -/

theorem mem_sortInsert {z x : String} : ∀ l, z ∈ sortInsert x l ↔ z = x ∨ z ∈ l := by
  intro l
  induction l with
  | nil => simp [sortInsert]
  | cons y ys ih =>
    by_cases h : Rat.blt (floatKey y) (floatKey x)
    · simp only [sortInsert, if_pos h, List.mem_cons, ih]
      tauto
    · simp only [sortInsert, if_neg h, List.mem_cons]

theorem pairwise_sortInsert (x : String) :
    ∀ l, l.Pairwise (fun a b => floatKey a ≤ floatKey b) →
      (sortInsert x l).Pairwise (fun a b => floatKey a ≤ floatKey b) := by
  intro l
  induction l with
  | nil => simp [sortInsert]
  | cons y ys ih =>
    intro hp
    rw [List.pairwise_cons] at hp
    by_cases h : Rat.blt (floatKey y) (floatKey x)
    · rw [sortInsert, if_pos h, List.pairwise_cons]
      have hyx : floatKey y ≤ floatKey x := le_of_lt h
      refine ⟨?_, ih hp.2⟩
      intro z hz
      rcases (mem_sortInsert ys).mp hz with rfl | hz
      · exact hyx
      · exact hp.1 z hz
    · rw [sortInsert, if_neg h, List.pairwise_cons]
      have hxy : floatKey x ≤ floatKey y := le_of_not_lt h
      refine ⟨?_, List.pairwise_cons.mpr hp⟩
      intro z hz
      rcases List.mem_cons.mp hz with rfl | hz
      · exact hxy
      · exact le_trans hxy (hp.1 z hz)

theorem pairwise_pySorted :
    ∀ l, (pySorted l).Pairwise (fun a b => floatKey a ≤ floatKey b) := by
  intro l
  induction l with
  | nil => simp [pySorted]
  | cons x xs ih => exact pairwise_sortInsert x _ ih

theorem sortInsert_length (x : String) : ∀ l, (sortInsert x l).length = l.length + 1 := by
  intro l
  induction l with
  | nil => rfl
  | cons y ys ih =>
    by_cases h : Rat.blt (floatKey y) (floatKey x)
    · simp [sortInsert, if_pos h, ih]
    · simp [sortInsert, if_neg h]

theorem pySorted_length : ∀ l, (pySorted l).length = l.length := by
  intro l
  induction l with
  | nil => rfl
  | cons x xs ih => simp [pySorted, sortInsert_length, ih]

/-- C1: for positive flame speed and thickness the deriver returns exactly
the advertised parameter bundle. -/
theorem c1_case_parameter_deriver (s t : ℚ) (hs : 0 < s) (ht : 0 < t) :
    ∃ p : CaseParameters, update_case_parameters s t = .ok p ∧
      p.domain_width = 5 * t ∧
      p.domain_length = 10 * p.domain_width ∧
      p.domain_length = 50 * t ∧
      p.half_domain_length = p.domain_length / 2 ∧
      p.chemical_time_scale = t / s ∧
      p.estimated_time_step = p.chemical_time_scale / 10 ∧
      p.estimated_sim_time = p.estimated_time_step * 100 := by
  have hs' : ¬ s ≤ 0 := not_le.mpr hs
  have ht' : ¬ t ≤ 0 := not_le.mpr ht
  unfold update_case_parameters
  rw [if_neg hs', if_neg ht']
  exact ⟨_, rfl, by ring, by ring, by ring, by ring, by ring, by ring, by ring⟩

theorem c1_case_parameter_deriver_witness :
    (0 : ℚ) < 1 ∧ (0 : ℚ) < 2 ∧
    (∃ p : CaseParameters, update_case_parameters 1 2 = .ok p ∧
      p.domain_width = 5 * 2 ∧
      p.domain_length = 10 * p.domain_width ∧
      p.domain_length = 50 * 2 ∧
      p.half_domain_length = p.domain_length / 2 ∧
      p.chemical_time_scale = 2 / 1 ∧
      p.estimated_time_step = p.chemical_time_scale / 10 ∧
      p.estimated_sim_time = p.estimated_time_step * 100) :=
  ⟨one_pos, two_pos, c1_case_parameter_deriver 1 2 one_pos two_pos⟩

/-- C6: a non-positive flame speed or flame thickness makes the deriver fail
with the invalid-parameter error instead of returning a bundle. -/
theorem c6_invalid_parameter (s t : ℚ) (h : s ≤ 0 ∨ t ≤ 0) :
    update_case_parameters s t = .error .invalidParameter := by
  unfold update_case_parameters
  rcases h with h | h
  · rw [if_pos h]
  · by_cases hs : s ≤ 0
    · rw [if_pos hs]
    · rw [if_neg hs, if_pos h]

theorem c6_invalid_parameter_witness :
    ((0 : ℚ) ≤ 0 ∨ (1 : ℚ) ≤ 0) ∧
    update_case_parameters 0 1 = .error .invalidParameter :=
  ⟨Or.inl le_rfl, c6_invalid_parameter 0 1 (Or.inl le_rfl)⟩

/-- C2 counterexample: with directory listing `["2", "10"]` the code keeps
only `["10"]`, excluding the numeric, non-zero-time entry `"2"` — so the
selection does not "always exclude the zero-time entry" while keeping every
other numeric entry. -/
theorem c2_counterexample :
    processedTimeDirs ["2", "10"] = ["10"] ∧
    is_numeric_string "2" = true ∧
    floatKey "2" ≠ 0 ∧
    "2" ∉ processedTimeDirs ["2", "10"] :=
  ⟨by decide, by decide, by decide, by decide⟩

/-- C2 (amended): the scan keeps the numeric-named entries, orders them
ascending by numeric value, and drops the first entry of that order — the
zero-time entry whenever one is present (so `"0", "2", "10"` yields
`[2, 10]` in any listing order), but the smallest non-zero entry otherwise
(`"2", "10"` yields `[10]`). -/
theorem c2_time_directory_order :
    processedTimeDirs ["0", "2", "10"] = ["2", "10"] ∧
    processedTimeDirs ["10", "0", "2"] = ["2", "10"] ∧
    processedTimeDirs ["2", "10"] = ["10"] ∧
    ∀ names : List String,
      (processedTimeDirs names).Pairwise (fun a b => floatKey a ≤ floatKey b) ∧
      (processedTimeDirs names).length
        = (names.filter is_numeric_string).length - 1 := by
  refine ⟨by decide, by decide, by decide, fun names => ⟨?_, ?_⟩⟩
  · exact (pairwise_pySorted _).sublist (List.drop_sublist _ _)
  · simp [processedTimeDirs, pySorted_length]

/-! ## Helper lemmas for the assembler theorems -/

theorem range_map_getD {α β : Type} (f : α → β) (d : α) :
    ∀ l : List α, (List.range l.length).map (fun i => f (l.getD i d)) = l.map f := by
  intro l
  induction l with
  | nil => simp
  | cons a t ih =>
    rw [List.length_cons, List.range_succ_eq_map, List.map_cons, List.map_map]
    simp only [Function.comp_def, List.getD_cons_zero, List.getD_cons_succ, List.map_cons]
    rw [ih]

/-- C5: the uniform-value parse strips exactly one trailing character back
off the token, recovering the numeric value when the token is a numeric
literal followed by one delimiter; a second trailing delimiter is not
tolerated. -/
theorem c5_uniform_value_parse :
    (∀ (s : List Char) (q : ℚ) (c : Char),
        pyFloat s = some q → pyFloat ((s ++ [c]).dropLast) = some q) ∧
    uniformValueOfLine "internalField uniform 300;" = some 300 ∧
    uniformValueOfLine "internalField uniform 300;;" = none := by
  refine ⟨?_, by decide, by decide⟩
  intro s q c h
  rw [List.dropLast_concat]
  exact h

theorem c5_uniform_value_parse_witness :
    pyFloat "300".data = some 300 ∧
    pyFloat (("300".data ++ [';']).dropLast) = some 300 :=
  ⟨by decide, c5_uniform_value_parse.1 "300".data 300 ';' (by decide)⟩

/-! ## Concrete synthetic field files -/

/-- A field file whose internal field is the uniform scalar 7. -/
def uniformLines7 : List String := ["internalField uniform 7;"]

/-- A field file whose internal field is the non-uniform list 1..5. -/
def nonuniLines5 : List String :=
  ["internalField nonuniform List<scalar>", "5", "(", "1", "2", "3", "4", "5", ")", ";"]

/-- A field file whose internal field is the non-uniform list 1..6. -/
def nonuniLines6 : List String :=
  ["internalField nonuniform List<scalar>", "6", "(", "1", "2", "3", "4", "5", "6", ")", ";"]

/-- C3 counterexample: a time directory holding one uniform field and one
non-uniform field of length 5, with the uniform field first in the parse
order, is broadcast to the stale carried count 0 — the run fails on the
length mismatch instead of producing 5 rows. -/
theorem c3_counterexample :
    parseField uniformLines7 = .ok (.uniform 7) ∧
    parseField nonuniLines5 = .ok (.nonuniform [1, 2, 3, 4, 5]) ∧
    collect_data [] [[("T", uniformLines7), ("p", nonuniLines5)]] =
      .error .inconsistentFieldLength :=
  ⟨rfl, rfl, rfl⟩

/-- C3 (amended): a uniform field is broadcast to the carried point count,
which equals the time step's N only for uniform fields parsed after the
first non-uniform field of that step; in particular a directory whose
non-uniform field precedes the uniform one yields one row per non-uniform
value with the uniform value replicated in every row. -/
theorem c3_uniform_broadcast (f1 f2 : List String) (vs : List ℚ) (u : ℚ)
    (h1 : parseField f1 = .ok (.nonuniform vs))
    (h2 : parseField f2 = .ok (.uniform u)) :
    collect_data [] [[("T", f1), ("p", f2)]] = .ok (vs.map (fun v => [v, u])) := by
  have r1 : readField [("T", f1), ("p", f2)] "T" = .ok f1 := rfl
  have r2 : readField [("T", f1), ("p", f2)] "p" = .ok f2 := rfl
  have e1 : collectFields [("T", f1), ("p", f2)] ["T", "p"] 0
      = .ok (vs.length, [vs, List.replicate vs.length u]) := by
    simp only [collectFields, r1, r2, h1, h2]
  have e2 : concatCols [vs, List.replicate vs.length u] = .ok (vs.map (fun v => [v, u])) := by
    have hc : List.all [List.replicate vs.length u]
        (fun col => decide (col.length = vs.length)) = true := by
      simp
    simp only [concatCols, hc, if_true]
    have : ∀ i ∈ List.range vs.length,
        [vs.getD i 0, (List.replicate vs.length u).getD i 0] = [vs.getD i 0, u] := by
      intro i hi
      rw [List.mem_range] at hi
      simp [List.getD, hi]
    rw [List.map_congr_left ?_]
    · exact congrArg Except.ok (range_map_getD (fun v => [v, u]) 0 vs)
    · intro i hi
      simp only [List.map_cons, List.map_nil]
      exact this i hi
  show collect_data [] [[("T", f1), ("p", f2)]] = .ok (vs.map (fun v => [v, u]))
  simp only [collect_data, sampleDims, collectAux, collectDir, e1, e2]
  simp [List.isEmpty]

theorem c3_uniform_broadcast_witness :
    parseField nonuniLines5 = .ok (.nonuniform [1, 2, 3, 4, 5]) ∧
    parseField uniformLines7 = .ok (.uniform 7) ∧
    collect_data [] [[("T", nonuniLines5), ("p", uniformLines7)]] =
      .ok ([(1 : ℚ), 2, 3, 4, 5].map (fun v => [v, 7])) :=
  ⟨rfl, rfl, c3_uniform_broadcast nonuniLines5 uniformLines7 [1, 2, 3, 4, 5] 7 rfl rfl⟩

/-- C4: two non-uniform fields of differing length inside one time step make
the collector fail with the inconsistent-field-length error; no truncated or
padded result is returned. -/
theorem c4_inconsistent_field_length (f1 f2 : List String) (vs1 vs2 : List ℚ)
    (h1 : parseField f1 = .ok (.nonuniform vs1))
    (h2 : parseField f2 = .ok (.nonuniform vs2))
    (hne : vs1.length ≠ vs2.length) :
    collect_data [] [[("T", f1), ("p", f2)]] = .error .inconsistentFieldLength := by
  have r1 : readField [("T", f1), ("p", f2)] "T" = .ok f1 := rfl
  have r2 : readField [("T", f1), ("p", f2)] "p" = .ok f2 := rfl
  have e1 : collectFields [("T", f1), ("p", f2)] ["T", "p"] 0
      = .ok (vs2.length, [vs1, vs2]) := by
    simp only [collectFields, r1, r2, h1, h2]
  have hd : decide (vs2.length = vs1.length) = false :=
    decide_eq_false (fun heq => hne heq.symm)
  have e2 : concatCols [vs1, vs2] = .error .inconsistentFieldLength := by
    simp only [concatCols, List.all_cons, List.all_nil, hd, Bool.false_and,
      Bool.and_true, Bool.false_eq_true, if_false]
  simp only [collect_data, sampleDims, collectAux, collectDir, e1, e2]

theorem c4_inconsistent_field_length_witness :
    parseField nonuniLines5 = .ok (.nonuniform [1, 2, 3, 4, 5]) ∧
    parseField nonuniLines6 = .ok (.nonuniform [1, 2, 3, 4, 5, 6]) ∧
    ([(1 : ℚ), 2, 3, 4, 5].length ≠ [(1 : ℚ), 2, 3, 4, 5, 6].length) ∧
    collect_data [] [[("T", nonuniLines5), ("p", nonuniLines6)]] =
      .error .inconsistentFieldLength :=
  ⟨rfl, rfl, by decide,
    c4_inconsistent_field_length nonuniLines5 nonuniLines6 [1, 2, 3, 4, 5]
      [1, 2, 3, 4, 5, 6] rfl rfl (by decide)⟩

theorem collectFields_nonuniform (dir : TimeDir) (vals : String → List ℚ) :
    ∀ (names : List String) (shape : ℕ),
      (∀ nm ∈ names, ∃ ls, dir.lookup nm = some ls ∧
        parseField ls = .ok (.nonuniform (vals nm))) →
      ∃ sh, collectFields dir names shape = .ok (sh, names.map vals) := by
  intro names
  induction names with
  | nil => exact fun shape _ => ⟨shape, rfl⟩
  | cons nm rest ih =>
    intro shape h
    obtain ⟨ls, hl, hp⟩ := h nm (List.mem_cons_self nm rest)
    have hr : readField dir nm = .ok ls := by
      simp only [readField, hl]
    obtain ⟨sh, ihe⟩ := ih (vals nm).length (fun m hm => h m (List.mem_cons_of_mem nm hm))
    refine ⟨sh, ?_⟩
    simp only [collectFields, hr, hp, ihe, List.map_cons]

/-- C7: whatever order the field files sit in the directory, the assembled
columns follow the caller-supplied order: temperature, pressure, then the
species in mechanism order — row `i`, column `j` holds value `i` of field
`(sampleDims species)[j]`. -/
theorem c7_column_order (sp : List String) (dir : TimeDir)
    (vals : String → List ℚ) (n : ℕ)
    (hlook : ∀ nm ∈ sampleDims sp, ∃ ls, dir.lookup nm = some ls ∧
        parseField ls = .ok (.nonuniform (vals nm)))
    (hlen : ∀ nm ∈ sampleDims sp, (vals nm).length = n) :
    collect_data sp [dir] =
      .ok ((List.range n).map
        (fun i => (sampleDims sp).map (fun nm => (vals nm).getD i 0))) := by
  obtain ⟨sh, e1⟩ := collectFields_nonuniform dir vals (sampleDims sp) 0 hlook
  have hT : "T" ∈ sampleDims sp := List.mem_cons_self _ _
  have hTn : (vals "T").length = n := hlen "T" hT
  have e2 : concatCols ((sampleDims sp).map vals) =
      .ok ((List.range n).map
        (fun i => (sampleDims sp).map (fun nm => (vals nm).getD i 0))) := by
    have hmap : (sampleDims sp).map vals = vals "T" :: ("p" :: sp).map vals := rfl
    rw [hmap]
    have hall : (("p" :: sp).map vals).all
        (fun col => decide (col.length = n)) = true := by
      rw [List.all_eq_true]
      intro col hc
      obtain ⟨nm, hnm, rfl⟩ := List.mem_map.mp hc
      have : nm ∈ sampleDims sp := List.mem_cons_of_mem _ hnm
      rw [decide_eq_true_eq, hlen nm this]
    simp only [concatCols, hTn]
    rw [if_pos hall]
    refine congrArg Except.ok (List.map_congr_left ?_)
    intro i _
    rw [← hmap, List.map_map]
    rfl
  simp only [collect_data, collectAux, collectDir, e1, e2]
  simp [List.isEmpty]

/-! ## Concrete mechanism with species order A, B, C (field files listed in a
scrambled directory order) -/

def linesT : List String :=
  ["internalField nonuniform List<scalar>", "2", "(", "300", "301", ")", ";"]

def linesP : List String :=
  ["internalField nonuniform List<scalar>", "2", "(", "100", "101", ")", ";"]

def linesA : List String :=
  ["internalField nonuniform List<scalar>", "2", "(", "1", "2", ")", ";"]

def linesB : List String :=
  ["internalField nonuniform List<scalar>", "2", "(", "3", "4", ")", ";"]

def linesC : List String :=
  ["internalField nonuniform List<scalar>", "2", "(", "5", "6", ")", ";"]

def dirABC : TimeDir :=
  [("B", linesB), ("T", linesT), ("p", linesP), ("A", linesA), ("C", linesC)]

def valsABC : String → List ℚ := fun nm =>
  if nm = "T" then [300, 301]
  else if nm = "p" then [100, 101]
  else if nm = "A" then [1, 2]
  else if nm = "B" then [3, 4]
  else [5, 6]

theorem c7_column_order_witness :
    (∀ nm ∈ sampleDims ["A", "B", "C"], ∃ ls, dirABC.lookup nm = some ls ∧
        parseField ls = .ok (.nonuniform (valsABC nm))) ∧
    collect_data ["A", "B", "C"] [dirABC] =
      .ok ((List.range 2).map
        (fun i => (sampleDims ["A", "B", "C"]).map (fun nm => (valsABC nm).getD i 0))) := by
  have h : ∀ nm ∈ sampleDims ["A", "B", "C"], ∃ ls, dirABC.lookup nm = some ls ∧
      parseField ls = .ok (.nonuniform (valsABC nm)) := by
    intro nm hnm
    fin_cases hnm
    · exact ⟨linesT, rfl, rfl⟩
    · exact ⟨linesP, rfl, rfl⟩
    · exact ⟨linesA, rfl, rfl⟩
    · exact ⟨linesB, rfl, rfl⟩
    · exact ⟨linesC, rfl, rfl⟩
  exact ⟨h, c7_column_order ["A", "B", "C"] dirABC valsABC 2 h (by decide)⟩

/-- C8: before any successful `sample()` both result accessors fail with the
not-yet-sampled error; after a successful `sample()` the stored array is
returned without error. -/
theorem c8_not_yet_sampled :
    (∀ s : OneDSampler, s.data = none →
      s.get_data = .error .notYetSampled ∧ s.save = .error .notYetSampled) ∧
    (∀ (s : OneDSampler) (dirs : List TimeDir) (s2 : OneDSampler),
      s.sample dirs = .ok s2 →
      ∃ d, collect_data s.species_names dirs = .ok d ∧ s2.get_data = .ok d) := by
  constructor
  · intro s h
    unfold OneDSampler.get_data OneDSampler.save
    rw [h]
    exact ⟨rfl, rfl⟩
  · intro s dirs s2 h
    unfold OneDSampler.sample at h
    cases hc : collect_data s.species_names dirs with
    | ok d =>
      rw [hc] at h
      refine ⟨d, rfl, ?_⟩
      cases h
      rfl
    | error e =>
      rw [hc] at h
      cases h

def dirSmall : List TimeDir :=
  [[("T", ["internalField nonuniform List<scalar>", "2", "(", "1", "2", ")", ";"]),
    ("p", ["internalField uniform 3;"])]]

theorem c8_not_yet_sampled_witness :
    ((⟨[], none⟩ : OneDSampler).get_data = .error .notYetSampled ∧
      (⟨[], none⟩ : OneDSampler).save = .error .notYetSampled) ∧
    OneDSampler.sample ⟨[], none⟩ dirSmall = .ok ⟨[], some [[1, 3], [2, 3]]⟩ ∧
    (∃ d, collect_data [] dirSmall = .ok d ∧
      OneDSampler.get_data ⟨[], some [[1, 3], [2, 3]]⟩ = .ok d) :=
  ⟨c8_not_yet_sampled.1 ⟨[], none⟩ rfl, rfl,
    c8_not_yet_sampled.2 ⟨[], none⟩ dirSmall ⟨[], some [[1, 3], [2, 3]]⟩ rfl⟩

/-- C9: with a split fraction in `[0, 1]`, `train_test_split` slices the
current index array at `int(split_ratio * data.shape[0])`: the training part
is that prefix, the validation part the rest, their concatenation is the
original index array, and their lengths sum to the container's length. -/
theorem c9_train_test_split (c : Container) (r : ℚ) (h0 : 0 ≤ r) (h1 : r ≤ 1) :
    (c.train_test_split r).1.dataIdx
        = c.dataIdx.take (pyInt (r * (c.data.length : ℚ))).toNat ∧
    (c.train_test_split r).2.dataIdx
        = c.dataIdx.drop (pyInt (r * (c.data.length : ℚ))).toNat ∧
    (c.train_test_split r).1.dataIdx ++ (c.train_test_split r).2.dataIdx
        = c.dataIdx ∧
    (c.train_test_split r).1.len + (c.train_test_split r).2.len = c.len := by
  have hq : (0 : ℚ) ≤ r * (c.data.length : ℚ) :=
    mul_nonneg h0 (Nat.cast_nonneg _)
  have hk : 0 ≤ pyInt (r * (c.data.length : ℚ)) := by
    unfold pyInt
    rw [if_neg (not_lt.mpr hq)]
    exact Int.floor_nonneg.mpr hq
  have hb : pyBound c.dataIdx.length (pyInt (r * (c.data.length : ℚ)))
      = min (pyInt (r * (c.data.length : ℚ))).toNat c.dataIdx.length := by
    unfold pyBound
    rw [if_neg (not_lt.mpr hk)]
  have htake : ∀ (l : List ℕ) (a : ℕ), l.take (min a l.length) = l.take a := by
    intro l a
    rcases le_total a l.length with h | h
    · rw [min_eq_left h]
    · rw [min_eq_right h, List.take_of_length_le h,
        List.take_of_length_le (le_refl _)]
  have hdrop : ∀ (l : List ℕ) (a : ℕ), l.drop (min a l.length) = l.drop a := by
    intro l a
    rcases le_total a l.length with h | h
    · rw [min_eq_left h]
    · rw [min_eq_right h, List.drop_eq_nil_of_le h,
        List.drop_eq_nil_of_le (le_refl _)]
  have e1 : (c.train_test_split r).1.dataIdx
      = c.dataIdx.take (pyInt (r * (c.data.length : ℚ))).toNat := by
    show pyTake c.dataIdx (pyInt (r * (c.data.length : ℚ))) = _
    unfold pyTake
    rw [hb, htake]
  have e2 : (c.train_test_split r).2.dataIdx
      = c.dataIdx.drop (pyInt (r * (c.data.length : ℚ))).toNat := by
    show pyDrop c.dataIdx (pyInt (r * (c.data.length : ℚ))) = _
    unfold pyDrop
    rw [hb, hdrop]
  refine ⟨e1, e2, ?_, ?_⟩
  · rw [e1, e2]
    exact List.take_append_drop _ _
  · show (c.train_test_split r).1.dataIdx.length
        + (c.train_test_split r).2.dataIdx.length = c.dataIdx.length
    rw [e1, e2, List.length_take, List.length_drop]
    omega

theorem c9_train_test_split_witness :
    (0 : ℚ) ≤ 1 / 2 ∧ (1 / 2 : ℚ) ≤ 1 ∧
    ((Container.train_test_split ⟨[[1], [2], [3], [4]], [0, 1, 2, 3]⟩ (1 / 2)).1.dataIdx
        = [0, 1, 2, 3].take (pyInt ((1 / 2) * (([[(1 : ℚ)], [2], [3], [4]] : List (List ℚ)).length : ℚ))).toNat ∧
      (Container.train_test_split ⟨[[1], [2], [3], [4]], [0, 1, 2, 3]⟩ (1 / 2)).2.dataIdx
        = [0, 1, 2, 3].drop (pyInt ((1 / 2) * (([[(1 : ℚ)], [2], [3], [4]] : List (List ℚ)).length : ℚ))).toNat ∧
      (Container.train_test_split ⟨[[1], [2], [3], [4]], [0, 1, 2, 3]⟩ (1 / 2)).1.dataIdx
          ++ (Container.train_test_split ⟨[[1], [2], [3], [4]], [0, 1, 2, 3]⟩ (1 / 2)).2.dataIdx
        = [0, 1, 2, 3] ∧
      (Container.train_test_split ⟨[[1], [2], [3], [4]], [0, 1, 2, 3]⟩ (1 / 2)).1.len
          + (Container.train_test_split ⟨[[1], [2], [3], [4]], [0, 1, 2, 3]⟩ (1 / 2)).2.len
        = (⟨[[1], [2], [3], [4]], [0, 1, 2, 3]⟩ : Container).len) :=
  ⟨by norm_num, by norm_num,
    c9_train_test_split ⟨[[1], [2], [3], [4]], [0, 1, 2, 3]⟩ (1 / 2)
      (by norm_num) (by norm_num)⟩

theorem fyAux_perm : ∀ (fuel st : ℕ) (l : List ℕ), l.length = fuel →
    (fyAux fuel st l).Perm l := by
  intro fuel
  induction fuel with
  | zero =>
    intro st l hl
    rw [List.length_eq_zero] at hl
    subst hl
    exact List.Perm.refl _
  | succ n ih =>
    intro st l hl
    have hne : l.isEmpty = false := by
      cases l with
      | nil => simp at hl
      | cons a t => rfl
    rw [fyAux, hne]
    simp only [Bool.false_eq_true, if_false]
    have hj : st % l.length < l.length := by
      apply Nat.mod_lt
      omega
    have hrest : (l.take (st % l.length) ++ l.drop (st % l.length + 1)).length = n := by
      rw [List.length_append, List.length_take, List.length_drop]
      omega
    have hsplit : l = l.take (st % l.length)
        ++ l[st % l.length] :: l.drop (st % l.length + 1) := by
      conv_lhs => rw [← List.take_append_drop (st % l.length) l]
      rw [List.drop_eq_getElem_cons hj]
    have hgd : l.getD (st % l.length) 0 = l[st % l.length] :=
      List.getD_eq_getElem l 0 hj
    rw [hgd]
    refine List.Perm.trans (List.Perm.cons _ (ih (nextRand st) _ hrest)) ?_
    conv_rhs => rw [hsplit]
    exact List.perm_middle.symm

/-- Item access through a resolvable index and an in-range row succeeds. -/
theorem getItem_isSome (c : Container) (idx j : ℕ)
    (hget : c.dataIdx.get? idx = some j) (hjlt : j < c.data.length) :
    (c.getItem idx).isSome = true := by
  have hrow : c.data.get? j = some (c.data.get ⟨j, hjlt⟩) := List.get?_eq_get hjlt
  unfold Container.getItem
  simp only [hget, hrow, Option.isSome_some]

/-- C10: shuffling with an explicit seed is deterministic and index-safe —
equal row counts give identical shuffled index arrays, the result is a
permutation of `0 .. n-1`, and every in-range item access resolves to a
valid row of the underlying data. -/
theorem c10_shuffle_deterministic (seed : ℕ) (c1 c2 : Container)
    (h : c1.data.length = c2.data.length) :
    (c1.shuffle seed).dataIdx = (c2.shuffle seed).dataIdx ∧
    (c1.shuffle seed).dataIdx.Perm (List.range c1.data.length) ∧
    ∀ idx, idx < (c1.shuffle seed).len →
      ∃ j, (c1.shuffle seed).dataIdx.get? idx = some j ∧ j < c1.data.length ∧
        ((c1.shuffle seed).getItem idx).isSome = true := by
  have hperm : (npPermutation seed c1.data.length).Perm (List.range c1.data.length) :=
    fyAux_perm _ _ _ (List.length_range _)
  refine ⟨?_, hperm, ?_⟩
  · show npPermutation seed c1.data.length = npPermutation seed c2.data.length
    rw [h]
  · intro idx hidx
    have hidx2 : idx < (c1.shuffle seed).dataIdx.length := hidx
    have hget : (c1.shuffle seed).dataIdx.get? idx
        = some ((c1.shuffle seed).dataIdx.get ⟨idx, hidx2⟩) := List.get?_eq_get hidx2
    have hjmem : (c1.shuffle seed).dataIdx.get ⟨idx, hidx2⟩ ∈ (c1.shuffle seed).dataIdx :=
      List.get_mem _ _ _
    have hjlt : (c1.shuffle seed).dataIdx.get ⟨idx, hidx2⟩ < c1.data.length :=
      List.mem_range.mp (hperm.mem_iff.mp hjmem)
    exact ⟨_, hget, hjlt, getItem_isSome _ _ _ hget hjlt⟩

theorem c10_shuffle_deterministic_witness :
    (([[(1 : ℚ)], [2], [3]] : List (List ℚ)).length
        = ([[(4 : ℚ)], [5], [6]] : List (List ℚ)).length) ∧
    ((Container.shuffle ⟨[[1], [2], [3]], [0, 1, 2]⟩ 0).dataIdx
        = (Container.shuffle ⟨[[4], [5], [6]], [0, 1, 2]⟩ 0).dataIdx ∧
      (Container.shuffle ⟨[[1], [2], [3]], [0, 1, 2]⟩ 0).dataIdx.Perm
        (List.range ([[(1 : ℚ)], [2], [3]] : List (List ℚ)).length) ∧
      ∀ idx, idx < (Container.shuffle ⟨[[1], [2], [3]], [0, 1, 2]⟩ 0).len →
        ∃ j, (Container.shuffle ⟨[[1], [2], [3]], [0, 1, 2]⟩ 0).dataIdx.get? idx
            = some j ∧ j < ([[(1 : ℚ)], [2], [3]] : List (List ℚ)).length ∧
          ((Container.shuffle ⟨[[1], [2], [3]], [0, 1, 2]⟩ 0).getItem idx).isSome
            = true) :=
  ⟨rfl, c10_shuffle_deterministic 0 ⟨[[1], [2], [3]], [0, 1, 2]⟩
    ⟨[[4], [5], [6]], [0, 1, 2]⟩ rfl⟩
